import Mathlib

/-!
Shallow embedding of vision_engine.py (Home Guard AI): the motion and
significance gate, the sampled HOG person detector with its cache, the
5-second analysis throttle, the Claude response parsing of analyze_frame,
and the BackgroundAnalyzer single-flight state machine.

OpenCV primitives (grayscale conversion, the contour pipeline, the HOG
detector) and json.loads are external library calls: they are taken as
function parameters.  All control flow, thresholds, caching and state
updates of the repository code itself are modelled exactly.  Python floats
are modelled as exact rationals and wall-clock times as rationals; the
mutable module globals are threaded as explicit state.
-/

namespace HomeGuard

/-- THROTTLE_SECONDS = 5, the minimum gap between Claude calls. -/
def THROTTLE_SECONDS : ℚ := 5

/-- Module-level initial value of the throttle timestamp, 0.0 (the epoch). -/
def initialLastAnalysisTime : ℚ := 0

/-- can_analyze: true when at least THROTTLE_SECONDS have passed since the
last analysis.  The module global last-analysis time is passed explicitly. -/
def can_analyze (now lastTime : ℚ) : Bool :=
  decide (THROTTLE_SECONDS ≤ now - lastTime)

/-- Fields of the fallback dict built by analyze_frame when the response
text holds no JSON object at all. -/
structure FallbackDict where
  threat_level : String
  description : String
  description_telugu : String
  category : String
  details : String
  deriving DecidableEq

/-- Dict values returned by analyze_frame when it does not return None: a
successfully parsed JSON object (J is the type of parsed JSON values), the
fallback dict, or an error dict. -/
inductive AnalyzeReturn (J : Type) where
  | json (j : J)
  | fallback (d : FallbackDict)
  | errorDict (msg : String)
  deriving DecidableEq

/-- Python str.find for a single character: index of the first occurrence,
or -1 when the character is absent. -/
def pyFind (cs : List Char) (c : Char) : Int :=
  match cs.findIdx? (· == c) with
  | some i => (i : Int)
  | none => -1

/-- Python str.rfind for a single character: index of the last occurrence,
or -1 when the character is absent. -/
def pyRfind (cs : List Char) (c : Char) : Int :=
  match cs.reverse.findIdx? (· == c) with
  | some i => (cs.length : Int) - 1 - (i : Int)
  | none => -1

/-- Python slicing text[a:b] for the index ranges used in analyze_frame. -/
def pySlice (cs : List Char) (a b : Int) : List Char :=
  (cs.drop a.toNat).take (b - a).toNat

/-- Parsing of the Claude response body inside analyze_frame: json.loads on
the whole text; on failure, when the text has an opening brace at index
start and a closing brace at or after it, retry json.loads on the slice
from start to one past the last closing brace, a failure of the retry
escaping to the outer exception handler which returns an error dict; when
no such slice exists, build the fallback dict with threat level medium and
the description truncated to 200 characters.  tryParse stands for
json.loads, returning the decoded value or the exception message. -/
def parseClaudeResponse {J : Type} (tryParse : List Char → Except String J)
    (text : List Char) : AnalyzeReturn J :=
  match tryParse text with
  | Except.ok j => AnalyzeReturn.json j
  | Except.error _ =>
    let start := pyFind text '\x7b'
    let stop := pyRfind text '\x7d' + 1
    if start ≠ -1 ∧ start < stop then
      match tryParse (pySlice text start stop) with
      | Except.ok j => AnalyzeReturn.json j
      | Except.error e => AnalyzeReturn.errorDict e
    else
      AnalyzeReturn.fallback
        { threat_level := "medium"
          description := String.mk (text.take 200)
          description_telugu := ""
          category := "other"
          details := String.mk text }

/-- analyze_frame with its external effects as parameters: configured says
whether the API key is set, lastTime is the module global last-analysis
timestamp on entry, now is the time.time() value read by can_analyze,
remote is the outcome of the API call (the exception message when it
raises, or the stripped response text), and tResp is the time.time() value
read right after the call returns.  The result pairs the Python return
value (none models None, returned when throttled) with the value of the
timestamp global after the call; as in the source, the timestamp is only
assigned after the remote call has returned. -/
def analyze_frame {J : Type} (tryParse : List Char → Except String J)
    (configured : Bool) (lastTime now tResp : ℚ)
    (remote : Except String (List Char)) :
    Option (AnalyzeReturn J) × ℚ :=
  if configured = false then
    (some (AnalyzeReturn.errorDict "Anthropic API key not configured."), lastTime)
  else if can_analyze now lastTime = false then
    (none, lastTime)
  else
    match remote with
    | Except.error e => (some (AnalyzeReturn.errorDict e), lastTime)
    | Except.ok text => (some (parseClaudeResponse tryParse text), tResp)

/-- MOTION_THRESHOLD = 0.05, the 5 percent pixel-change threshold. -/
def MOTION_THRESHOLD : ℚ := 5 / 100

/-- Per-pixel absolute difference, cv2.absdiff on grayscale values. -/
def pixDiff (a b : Nat) : Nat := max a b - min a b

/-- Count of pixels whose absolute difference exceeds the binarization
threshold 30, modelling cv2.threshold at 30 followed by count_nonzero. -/
def changedPixelCount (gp gc : List Nat) : Nat :=
  (gp.zip gc).countP (fun ab => decide (30 < pixDiff ab.1 ab.2))

/-- Fraction of changed pixels: the change_ratio of detect_motion and the
return value of get_motion_score on two present frames. -/
def changeRatio (gp gc : List Nat) : ℚ :=
  (changedPixelCount gp gc : ℚ) / (((gp.zip gc).length : ℚ))

/-- detect_motion: gray is the cv2.cvtColor BGR2GRAY primitive producing
the row-major grayscale pixel list of a frame; an absent frame always
counts as motion. -/
def detect_motion {F : Type} (gray : F → List Nat) :
    Option F → Option F → Bool
  | none, _ => true
  | _, none => true
  | some p, some c => decide (MOTION_THRESHOLD < changeRatio (gray p) (gray c))

/-- get_motion_score: the fraction of pixels that changed between frames,
1.0 when either frame is absent. -/
def get_motion_score {F : Type} (gray : F → List Nat) :
    Option F → Option F → ℚ
  | none, _ => 1
  | _, none => 1
  | some p, some c => changeRatio (gray p) (gray c)

/-- MIN_CONTOUR_AREA = 3000 square pixels. -/
def MIN_CONTOUR_AREA : ℚ := 3000

/-- A bounding box in pixel coordinates, cv2.boundingRect output. -/
structure Box where
  x : Int
  y : Int
  w : Int
  h : Int
  deriving DecidableEq

/-- detect_significant_contours: contoursOf is the OpenCV pipeline (blur,
absdiff, threshold at 25, dilate, findContours) returning the external
contours of the motion diff; area and boundingRect are cv2.contourArea and
cv2.boundingRect.  The repository code keeps the contours whose area
exceeds MIN_CONTOUR_AREA, maps them to boxes, and reports whether any
survived; an absent frame yields (true, []). -/
def detect_significant_contours {F C : Type} (contoursOf : F → F → List C)
    (area : C → ℚ) (boundingRect : C → Box) :
    Option F → Option F → Bool × List Box
  | none, _ => (true, [])
  | _, none => (true, [])
  | some p, some c =>
    let sig := ((contoursOf p c).filter
        (fun ct => decide (MIN_CONTOUR_AREA < area ct))).map boundingRect
    (decide (0 < sig.length), sig)

/-- Mutable module state of detect_person_hog: the frame counter and the
cached (found, boxes) result. -/
structure HogState where
  counter : Nat
  cache : Bool × List Box
  deriving DecidableEq

/-- Initial module state: counter 0 and cache (False, []). -/
def initHogState : HogState := { counter := 0, cache := (false, []) }

/-- The module constant _hog_run_every = 10. -/
def hog_run_every : Nat := 10

/-- detect_person_hog: hogDetect is the cv2 HOGDescriptor detectMultiScale
primitive, returning candidate boxes together with the parallel list of
confidence weights.  An absent frame returns (false, []) without touching
the state; otherwise the counter is incremented and the expensive detector
runs only when the counter is a multiple of _hog_run_every, the cached pair
being returned unchanged on every other call.  The result triples the
returned (found, boxes) pair with the updated module state and a flag
telling whether the expensive detector actually ran. -/
def detect_person_hog {F : Type} (hogDetect : F → List Box × List ℚ)
    (st : HogState) : Option F → (Bool × List Box) × HogState × Bool
  | none => ((false, []), st, false)
  | some f =>
    let c := st.counter + 1
    if c % hog_run_every ≠ 0 then
      (st.cache, { st with counter := c }, false)
    else
      let bw := hogDetect f
      let confident :=
        ((bw.1.zip bw.2).filter (fun p => decide ((3 : ℚ) / 10 < p.2))).map Prod.fst
      let res := (decide (0 < confident.length), confident)
      (res, { counter := c, cache := res }, true)

/-- should_call_claude: the three-layer gate of the source.  Layer 1 is
detect_motion, layer 2a detect_significant_contours, layer 2b
detect_person_hog, layer 3 can_analyze; now and lastTime feed can_analyze.
Returns the (should_analyze, reason, boxes) triple together with the HOG
module state after the call. -/
def should_call_claude {F C : Type} (gray : F → List Nat)
    (contoursOf : F → F → List C) (area : C → ℚ) (boundingRect : C → Box)
    (hogDetect : F → List Box × List ℚ) (st : HogState) (now lastTime : ℚ)
    (prev curr : Option F) : (Bool × String × List Box) × HogState :=
  if detect_motion gray prev curr = false then
    ((false, "No motion", []), st)
  else
    let sc := detect_significant_contours contoursOf area boundingRect prev curr
    if sc.1 = false then
      ((false, "Motion too small (shadow/noise)", []), st)
    else
      let ph := detect_person_hog hogDetect st curr
      if can_analyze now lastTime = false then
        ((false, "Throttled (cooling down)", sc.2), ph.2.1)
      else
        let allBoxes := if ph.1.2.isEmpty then sc.2 else ph.1.2
        let reason :=
          if ph.1.1 then "Person detected (HOG)" else "Large movement detected"
        ((true, reason, allBoxes), ph.2.1)

/-- Shared state of a BackgroundAnalyzer instance: the result slot, the
pending flag and the stored frame encoding.  R is the result dict type and
E the encoded-frame type. -/
structure BGState (R E : Type) where
  result : Option R
  pending : Bool
  frameB64 : Option E
  deriving DecidableEq

/-- Constructor state: no result, not pending, no stored encoding. -/
def initBGState {R E : Type} : BGState R E :=
  { result := none, pending := false, frameB64 := none }

/-- submit: under the lock, skip when pending; otherwise mark pending,
clear the result slot, store the encoded frame and launch the background
task.  encode is the preprocess plus JPEG/Base64 encoding; the returned
Bool reports whether a task was launched. -/
def submit {R E F : Type} (encode : F → E) (st : BGState R E) (frame : F) :
    BGState R E × Bool :=
  if st.pending then (st, false)
  else ({ result := none, pending := true, frameB64 := some (encode frame) }, true)

/-- Completion of the background task: the run closure stores the value the
analysis returned (None when the analysis was throttled, an error dict when
it raised) and clears the pending flag, under the lock. -/
def taskComplete {R E : Type} (st : BGState R E) (res : Option R) : BGState R E :=
  { st with result := res, pending := false }

/-- get_result: under the lock, when a result is present return it together
with the stored encoding and clear both slots; otherwise return
(none, none) and leave the state untouched.  The function is total, which
models the non-blocking contract. -/
def get_result {R E : Type} (st : BGState R E) :
    (Option R × Option E) × BGState R E :=
  match st.result with
  | some r => ((some r, st.frameB64), { st with result := none, frameB64 := none })
  | none => ((none, none), st)

/-- Events acting on a BackgroundAnalyzer: a submit from the producer loop,
completion of the running background task with the value it stores, and a
poll of get_result. -/
inductive BGEvent (R F : Type) where
  | submit (frame : F)
  | complete (res : Option R)
  | poll

/-- System state for the in-flight invariant: the shared analyzer state
plus the number of background tasks currently running. -/
structure BGSystem (R E : Type) where
  bg : BGState R E
  inFlight : Nat

/-- Initial system: constructor state and no task in flight. -/
def initBGSystem {R E : Type} : BGSystem R E :=
  { bg := initBGState, inFlight := 0 }

/-- One event step: a submit launches a task exactly when the submit call
reports a launch; a complete event can only fire when some task is in
flight, and then stores the task value; a poll runs get_result. -/
def bgStep {R E F : Type} (encode : F → E) (s : BGSystem R E) :
    BGEvent R F → BGSystem R E
  | BGEvent.submit f =>
    let sr := submit encode s.bg f
    { bg := sr.1, inFlight := s.inFlight + (if sr.2 then 1 else 0) }
  | BGEvent.complete r =>
    if 0 < s.inFlight then
      { bg := taskComplete s.bg r, inFlight := s.inFlight - 1 }
    else s
  | BGEvent.poll => { s with bg := (get_result s.bg).2 }

/-- Run of a whole event sequence from a system state. -/
def bgRun {R E F : Type} (encode : F → E) (s : BGSystem R E) :
    List (BGEvent R F) → BGSystem R E
  | [] => s
  | e :: es => bgRun encode (bgStep encode s e) es

/-- Outputs of n successive get_result polls from a state. -/
def pollStream {R E : Type} (st : BGState R E) : Nat → List (Option R × Option E)
  | 0 => []
  | n + 1 => (get_result st).1 :: pollStream (get_result st).2 n

/-- Trace of repeated detect_person_hog calls: the list of outcomes, each
the returned pair with the state after the call and the ran flag. -/
def hogTrace {F : Type} (hogDetect : F → List Box × List ℚ) :
    HogState → List (Option F) → List ((Bool × List Box) × HogState × Bool)
  | _, [] => []
  | st, f :: fs =>
    let r := detect_person_hog hogDetect st f
    r :: hogTrace hogDetect r.2.1 fs

/-- Number of calls among the next n (on present frames) on which the
expensive detector runs, as a function of the counter on entry. -/
def runCount : Nat → Nat → Nat
  | _, 0 => 0
  | c, n + 1 => (if (c + 1) % hog_run_every = 0 then 1 else 0) + runCount (c + 1) n

/- ------------------------------------------------------------------ -/
/- Theorems -/
/- ------------------------------------------------------------------ -/

/-- C6: can_analyze returns true iff at least the 5-second cooldown has
passed since the last-accepted timestamp; once the timestamp is set to t,
can_analyze is false at every time before t + 5 and true at every time from
t + 5 on; and since the module initializes the timestamp to zero (the
epoch), the first call is allowed at any wall-clock time at least five
seconds past the epoch. -/
theorem can_analyze_spec :
    (∀ now lastTime : ℚ,
      can_analyze now lastTime = true ↔ THROTTLE_SECONDS ≤ now - lastTime) ∧
    (∀ t tq : ℚ, tq < t + THROTTLE_SECONDS → can_analyze tq t = false) ∧
    (∀ t tq : ℚ, t + THROTTLE_SECONDS ≤ tq → can_analyze tq t = true) ∧
    (∀ now : ℚ, THROTTLE_SECONDS ≤ now →
      can_analyze now initialLastAnalysisTime = true) := by
  refine ⟨fun now lastTime => ?_, fun t tq h => ?_, fun t tq h => ?_, fun now h => ?_⟩
  · simp [can_analyze]
  · simp only [can_analyze, decide_eq_false_iff_not]
    intro hc
    linarith
  · simp only [can_analyze, decide_eq_true_eq]
    linarith
  · simp only [can_analyze, initialLastAnalysisTime, decide_eq_true_eq]
    linarith

/-- Witness for C6 at concrete times 3, 7 and 100 with the timestamp 0. -/
theorem can_analyze_spec_witness :
    can_analyze 3 0 = false ∧ can_analyze 7 0 = true ∧
    can_analyze 100 initialLastAnalysisTime = true := by
  refine ⟨can_analyze_spec.2.1 0 3 ?_, can_analyze_spec.2.2.1 0 7 ?_,
    can_analyze_spec.2.2.2 100 ?_⟩ <;> norm_num [THROTTLE_SECONDS]

/-- C1 counterexample: with the key configured, the timestamp at 0 and the
call issued at time 100 (cooldown elapsed, so a remote call is issued), a
remote call that raises leaves the throttle timestamp at 0 instead of
advancing it, refuting the claim that the timestamp advances at call-issue
time regardless of whether the call raises. -/
theorem analyze_frame_markaccept_cex :
    can_analyze 100 0 = true ∧
    (analyze_frame (fun _ => (Except.error "bad" : Except String Unit)) true 0 100 101
        (Except.error "connection error")).1 =
      some (AnalyzeReturn.errorDict "connection error") ∧
    (analyze_frame (fun _ => (Except.error "bad" : Except String Unit)) true 0 100 101
        (Except.error "connection error")).2 = 0 := by
  refine ⟨?_, ?_, ?_⟩ <;>
    norm_num [analyze_frame, can_analyze, THROTTLE_SECONDS]

/-- C1 amended: the throttle timestamp advances exactly when an issued
remote call returns a response, being set to the time read after the call
returns and before body parsing (hence advancing also for malformed
bodies); when the issued call raises an exception the timestamp is
unchanged and an error dict is returned, so a failing remote service can be
retried before the cooldown has elapsed; on a skipped call (throttled or
unconfigured) the timestamp never advances. -/
theorem analyze_frame_markaccept_spec {J : Type}
    (tryParse : List Char → Except String J) (lastTime now tResp : ℚ) :
    (∀ text, can_analyze now lastTime = true →
      analyze_frame tryParse true lastTime now tResp (Except.ok text) =
        (some (parseClaudeResponse tryParse text), tResp)) ∧
    (∀ e, can_analyze now lastTime = true →
      analyze_frame tryParse true lastTime now tResp (Except.error e) =
        (some (AnalyzeReturn.errorDict e), lastTime)) ∧
    (∀ remote, can_analyze now lastTime = false →
      analyze_frame tryParse true lastTime now tResp remote = (none, lastTime)) ∧
    (∀ remote, (analyze_frame tryParse false lastTime now tResp remote).2 = lastTime) := by
  refine ⟨fun text h => ?_, fun e h => ?_, fun remote h => ?_, fun remote => ?_⟩
  · simp [analyze_frame, h]
  · simp [analyze_frame, h]
  · simp [analyze_frame, h]
  · simp [analyze_frame]

/-- Witness for C1 amended: a successful call at time 100 advances the
timestamp to the post-call time 101, a throttled call at time 3 returns
None and leaves it at 0. -/
theorem analyze_frame_markaccept_spec_witness :
    analyze_frame (fun _ => (Except.error "bad" : Except String Unit)) true 0 100 101
        (Except.ok ['h', 'i']) =
      (some (parseClaudeResponse
        (fun _ => (Except.error "bad" : Except String Unit)) ['h', 'i']), 101) ∧
    analyze_frame (fun _ => (Except.error "bad" : Except String Unit)) true 0 3 4
        (Except.ok ['h', 'i']) = (none, 0) := by
  refine ⟨(analyze_frame_markaccept_spec _ 0 100 101).1 ['h', 'i'] ?_,
    (analyze_frame_markaccept_spec _ 0 3 4).2.2.1 (Except.ok ['h', 'i']) ?_⟩ <;>
    norm_num [can_analyze, THROTTLE_SECONDS]

/-- C8: when the response body fails to parse as JSON, analyze_frame
retries the parse on the substring from the first opening brace to the last
closing brace when such a substring exists (a second failure escaping to
the outer handler as an error dict), and otherwise returns the fallback
dict with threat level medium and the description truncated to the first
200 characters of the raw text: no branch drops the occurrence. -/
theorem parse_salvage_spec {J : Type} (tryParse : List Char → Except String J)
    (text : List Char) (err : String) (hfail : tryParse text = Except.error err) :
    (pyFind text '\x7b' ≠ -1 → pyFind text '\x7b' < pyRfind text '\x7d' + 1 →
      parseClaudeResponse tryParse text =
        match tryParse (pySlice text (pyFind text '\x7b') (pyRfind text '\x7d' + 1)) with
        | Except.ok j => AnalyzeReturn.json j
        | Except.error e => AnalyzeReturn.errorDict e) ∧
    (pyFind text '\x7b' = -1 ∨ pyRfind text '\x7d' + 1 ≤ pyFind text '\x7b' →
      parseClaudeResponse tryParse text =
        AnalyzeReturn.fallback
          { threat_level := "medium"
            description := String.mk (text.take 200)
            description_telugu := ""
            category := "other"
            details := String.mk text }) := by
  constructor
  · intro h1 h2
    simp [parseClaudeResponse, hfail, h1, h2]
  · intro h
    have hcond : ¬ (pyFind text '\x7b' ≠ -1 ∧ pyFind text '\x7b' < pyRfind text '\x7d' + 1) := by
      rcases h with h | h
      · simp [h]
      · exact fun hc => absurd hc.2 (not_lt.mpr h)
    simp [parseClaudeResponse, hfail, if_neg hcond]

/-- Witness for C8 on the brace-free text hi with a failing parser: the
fallback dict is produced. -/
theorem parse_salvage_spec_witness :
    parseClaudeResponse (fun _ => (Except.error "bad" : Except String Unit)) ['h', 'i'] =
      AnalyzeReturn.fallback
        { threat_level := "medium"
          description := "hi"
          description_telugu := ""
          category := "other"
          details := "hi" } := by
  have h := (parse_salvage_spec (fun _ => (Except.error "bad" : Except String Unit))
      ['h', 'i'] "bad" rfl).2 (Or.inl (by rfl))
  simpa using h

/-- C10: an absent previous frame is treated as maximally significant at
every stage of the cascade: detect_motion returns true, get_motion_score
returns 1.0, and detect_significant_contours returns (true, []). -/
theorem bootstrap_spec {F C : Type} (gray : F → List Nat)
    (contoursOf : F → F → List C) (area : C → ℚ) (boundingRect : C → Box)
    (curr : Option F) :
    detect_motion gray none curr = true ∧
    get_motion_score gray none curr = 1 ∧
    detect_significant_contours contoursOf area boundingRect none curr = (true, []) := by
  refine ⟨?_, ?_, ?_⟩ <;> cases curr <;> rfl

/-- C7: on two present frames whose motion score is at most the five
percent threshold (two identical frames in particular), the gate returns
(false, No motion, []) with the HOG state returned unchanged, and this
holds for every choice of contour and HOG primitives: neither the
significance filter nor the shape detector influences the call. -/
theorem gate_no_motion_spec {F C : Type} (gray : F → List Nat)
    (contoursOf : F → F → List C) (area : C → ℚ) (boundingRect : C → Box)
    (hogDetect : F → List Box × List ℚ) (st : HogState) (now lastTime : ℚ)
    (p c : F)
    (hscore : get_motion_score gray (some p) (some c) ≤ MOTION_THRESHOLD) :
    should_call_claude gray contoursOf area boundingRect hogDetect st now lastTime
      (some p) (some c) = ((false, "No motion", []), st) := by
  have hm : detect_motion gray (some p) (some c) = false := by
    have hn : ¬ MOTION_THRESHOLD < changeRatio (gray p) (gray c) := not_lt.mpr hscore
    simpa [detect_motion] using hn
  simp [should_call_claude, hm]

/-- Witness for C7 on two identical one-pixel frames: the motion score is 0
and the gate rejects with reason No motion, leaving the HOG state alone. -/
theorem gate_no_motion_spec_witness :
    should_call_claude (fun _ : Unit => [0]) (fun _ _ => [()]) (fun _ => (5000 : ℚ))
      (fun _ => ⟨0, 0, 10, 10⟩) (fun _ => ([], [])) initHogState 100 0
      (some ()) (some ()) = ((false, "No motion", []), initHogState) := by
  apply gate_no_motion_spec
  norm_num [get_motion_score, changeRatio, changedPixelCount, pixDiff,
    MOTION_THRESHOLD, List.countP, List.countP.go]

/-- C5: when motion and significance both pass, the gate returns the
throttled decision carrying the contour boxes when the cooldown has not
elapsed; otherwise it decides to analyze, the reason being Person detected
(HOG) exactly when the HOG found flag is set and Large movement detected
otherwise, the boxes being the HOG boxes when nonempty and the contour
boxes otherwise; in both cases the HOG state advances exactly as
detect_person_hog left it. -/
theorem gate_positive_spec {F C : Type} (gray : F → List Nat)
    (contoursOf : F → F → List C) (area : C → ℚ) (boundingRect : C → Box)
    (hogDetect : F → List Box × List ℚ) (st : HogState) (now lastTime : ℚ)
    (prev curr : Option F)
    (hm : detect_motion gray prev curr = true)
    (hs : (detect_significant_contours contoursOf area boundingRect prev curr).1 = true) :
    (can_analyze now lastTime = false →
      should_call_claude gray contoursOf area boundingRect hogDetect st now lastTime
          prev curr =
        ((false, "Throttled (cooling down)",
            (detect_significant_contours contoursOf area boundingRect prev curr).2),
          (detect_person_hog hogDetect st curr).2.1)) ∧
    (can_analyze now lastTime = true →
      should_call_claude gray contoursOf area boundingRect hogDetect st now lastTime
          prev curr =
        ((true,
            if (detect_person_hog hogDetect st curr).1.1 then "Person detected (HOG)"
            else "Large movement detected",
            if (detect_person_hog hogDetect st curr).1.2.isEmpty then
              (detect_significant_contours contoursOf area boundingRect prev curr).2
            else (detect_person_hog hogDetect st curr).1.2),
          (detect_person_hog hogDetect st curr).2.1)) := by
  constructor <;> intro h <;> simp [should_call_claude, hm, hs, h]

/-- Witness for C5: a two-pixel full change between two Boolean frames, one
significant contour of area 5000, an empty HOG detection and an expired
cooldown yield the analyze decision with reason Large movement detected and
the contour box. -/
theorem gate_positive_spec_witness :
    should_call_claude (fun b : Bool => if b then [255, 255] else [0, 0])
      (fun _ _ => [()]) (fun _ => (5000 : ℚ)) (fun _ => ⟨0, 0, 10, 10⟩)
      (fun _ => ([], [])) initHogState 100 0 (some false) (some true) =
      ((true, "Large movement detected", [⟨0, 0, 10, 10⟩]),
        { counter := 1, cache := (false, []) }) := by
  have hm : detect_motion (fun b : Bool => if b then [255, 255] else [0, 0])
      (some false) (some true) = true := by
    norm_num [detect_motion, changeRatio, changedPixelCount, pixDiff,
      MOTION_THRESHOLD, List.countP, List.countP.go]
  have hs : (detect_significant_contours (fun _ _ : Bool => [()])
      (fun _ => (5000 : ℚ)) (fun _ => (⟨0, 0, 10, 10⟩ : Box))
      (some false) (some true)).1 = true := by
    norm_num [detect_significant_contours, MIN_CONTOUR_AREA]
  have h := (gate_positive_spec (fun b : Bool => if b then [255, 255] else [0, 0])
      (fun _ _ => [()]) (fun _ => (5000 : ℚ)) (fun _ => ⟨0, 0, 10, 10⟩)
      (fun _ => ([], [])) initHogState 100 0 (some false) (some true) hm hs).2
      (by norm_num [can_analyze, THROTTLE_SECONDS])
  simpa [detect_person_hog, initHogState, hog_run_every, detect_significant_contours,
    MIN_CONTOUR_AREA] using h

/-- On a call whose incremented counter is not a multiple of the sampling
interval, detect_person_hog returns the cache, advances only the counter
and does not run the detector. -/
lemma hog_skip {F : Type} (hogDetect : F → List Box × List ℚ) (s : HogState) (f : F)
    (h : (s.counter + 1) % hog_run_every ≠ 0) :
    detect_person_hog hogDetect s (some f) =
      (s.cache, { s with counter := s.counter + 1 }, false) := by
  simp [detect_person_hog, h]

/-- The counter advances by one on every call with a present frame. -/
lemma hog_counter {F : Type} (hogDetect : F → List Box × List ℚ) (s : HogState) (f : F) :
    (detect_person_hog hogDetect s (some f)).2.1.counter = s.counter + 1 := by
  by_cases h : (s.counter + 1) % hog_run_every = 0 <;> simp [detect_person_hog, h]

/-- The expensive detector runs exactly when the incremented counter is a
multiple of the sampling interval. -/
lemma hog_ran_iff {F : Type} (hogDetect : F → List Box × List ℚ) (s : HogState) (f : F) :
    (detect_person_hog hogDetect s (some f)).2.2 = true ↔
      (s.counter + 1) % hog_run_every = 0 := by
  by_cases h : (s.counter + 1) % hog_run_every = 0 <;> simp [detect_person_hog, h]

/-- The number of detector runs along a trace of present frames depends
only on the entry counter and the trace length. -/
lemma hogTrace_countP {F : Type} (hogDetect : F → List Box × List ℚ)
    (frames : List F) : ∀ s : HogState,
    (hogTrace hogDetect s (frames.map some)).countP (fun r => r.2.2) =
      runCount s.counter frames.length := by
  induction frames with
  | nil => intro s; rfl
  | cons f fs ih =>
    intro s
    simp only [List.map_cons, hogTrace, List.countP_cons, List.length_cons, runCount]
    rw [ih, hog_counter]
    by_cases h : (s.counter + 1) % hog_run_every = 0
    · simp [hog_ran_iff, h]
      omega
    · simp [hog_ran_iff, h]

/-- Among any ten consecutive counter values exactly one is a multiple of
ten, whatever the entry counter. -/
lemma runCount_ten (c : Nat) : runCount c 10 = 1 := by
  have e : runCount c 10 =
      (if (c + 1) % 10 = 0 then 1 else 0) +
      ((if (c + 1 + 1) % 10 = 0 then 1 else 0) +
      ((if (c + 1 + 1 + 1) % 10 = 0 then 1 else 0) +
      ((if (c + 1 + 1 + 1 + 1) % 10 = 0 then 1 else 0) +
      ((if (c + 1 + 1 + 1 + 1 + 1) % 10 = 0 then 1 else 0) +
      ((if (c + 1 + 1 + 1 + 1 + 1 + 1) % 10 = 0 then 1 else 0) +
      ((if (c + 1 + 1 + 1 + 1 + 1 + 1 + 1) % 10 = 0 then 1 else 0) +
      ((if (c + 1 + 1 + 1 + 1 + 1 + 1 + 1 + 1) % 10 = 0 then 1 else 0) +
      ((if (c + 1 + 1 + 1 + 1 + 1 + 1 + 1 + 1 + 1) % 10 = 0 then 1 else 0) +
      ((if (c + 1 + 1 + 1 + 1 + 1 + 1 + 1 + 1 + 1 + 1) % 10 = 0 then 1 else 0) +
        0))))))))) := rfl
  rw [e]
  rcases (show c % 10 = 0 ∨ c % 10 = 1 ∨ c % 10 = 2 ∨ c % 10 = 3 ∨ c % 10 = 4 ∨
      c % 10 = 5 ∨ c % 10 = 6 ∨ c % 10 = 7 ∨ c % 10 = 8 ∨ c % 10 = 9 by omega)
    with h | h | h | h | h | h | h | h | h | h <;>
    simp [Nat.add_mod, h]

/-- C4: over any ten consecutive detect_person_hog calls on present frames
the expensive detector runs exactly once; a call runs it exactly when the
incremented counter is a multiple of ten; and every call that does not run
it returns the cached pair, leaves the cache unchanged and only advances
the counter, so the cache is never staler than nine frames. -/
theorem hog_sampling_spec {F : Type} (hogDetect : F → List Box × List ℚ)
    (st : HogState) (frames : List F) (hlen : frames.length = 10) :
    (hogTrace hogDetect st (frames.map some)).countP (fun r => r.2.2) = 1 ∧
    (∀ s : HogState, ∀ f : F,
      ((detect_person_hog hogDetect s (some f)).2.2 = true ↔
        (s.counter + 1) % hog_run_every = 0)) ∧
    (∀ s : HogState, ∀ f : F, (detect_person_hog hogDetect s (some f)).2.2 = false →
      detect_person_hog hogDetect s (some f) =
        (s.cache, { s with counter := s.counter + 1 }, false)) := by
  refine ⟨?_, fun s f => hog_ran_iff hogDetect s f, fun s f hf => ?_⟩
  · rw [hogTrace_countP, hlen, runCount_ten]
  · refine hog_skip hogDetect s f fun hc => ?_
    rw [(hog_ran_iff hogDetect s f).mpr hc] at hf
    simp at hf

/-- Witness for C4 on ten unit frames from the initial state: the detector
runs exactly once. -/
theorem hog_sampling_spec_witness :
    (hogTrace (fun _ : Unit => ([], [])) initHogState
        (([(), (), (), (), (), (), (), (), (), ()]).map some)).countP
      (fun r => r.2.2) = 1 :=
  (hog_sampling_spec (fun _ : Unit => ([], []))
    initHogState [(), (), (), (), (), (), (), (), (), ()] rfl).1

/-- Invariant tying the number of running tasks to the pending flag. -/
def bgInv {R E : Type} (s : BGSystem R E) : Prop :=
  s.inFlight = if s.bg.pending then 1 else 0

/-- A poll never changes the pending flag. -/
lemma get_result_pending {R E : Type} (st : BGState R E) :
    (get_result st).2.pending = st.pending := by
  cases h : st.result <;> simp [get_result, h]

/-- Every event preserves the in-flight invariant. -/
lemma bgInv_step {R E F : Type} (encode : F → E) (s : BGSystem R E)
    (e : BGEvent R F) (h : bgInv s) : bgInv (bgStep encode s e) := by
  cases e with
  | submit f =>
    by_cases hp : s.bg.pending <;>
      simp_all [bgInv, bgStep, submit, hp]
  | complete r =>
    by_cases hp : s.bg.pending <;> by_cases hf : 0 < s.inFlight <;>
      simp_all [bgInv, bgStep, taskComplete]
  | poll =>
    simpa [bgInv, bgStep, get_result_pending] using h

/-- The in-flight invariant holds along every run. -/
lemma bgInv_run {R E F : Type} (encode : F → E) (evs : List (BGEvent R F)) :
    ∀ s : BGSystem R E, bgInv s → bgInv (bgRun encode s evs) := by
  induction evs with
  | nil => intro s h; exact h
  | cons e es ih => intro s h; exact ih _ (bgInv_step encode s e h)

/-- From a state whose result slot is empty, polls deliver nothing and
change nothing, indefinitely. -/
lemma pollStream_none {R E : Type} (st : BGState R E) (hres : st.result = none) :
    ∀ n : Nat, pollStream st n = List.replicate n (none, none) := by
  intro n
  induction n with
  | zero => rfl
  | succ n ih =>
    have hg : get_result st = ((none, none), st) := by simp [get_result, hres]
    simp [pollStream, hg, List.replicate, ih]

/-- C2: a submit while an analysis is pending is a no-op that changes no
state and launches no task; from an idle analyzer two submits in a row
launch exactly one task, the second being a no-op; and along every event
sequence from the constructor state at most one background task is ever in
flight. -/
theorem single_flight_spec {R E F : Type} (encode : F → E) :
    (∀ st : BGState R E, ∀ frame : F, st.pending = true →
      submit encode st frame = (st, false)) ∧
    (∀ st : BGState R E, ∀ f1 f2 : F, st.pending = false →
      (submit encode st f1).2 = true ∧
      submit encode (submit encode st f1).1 f2 = ((submit encode st f1).1, false)) ∧
    (∀ evs : List (BGEvent R F),
      (bgRun encode initBGSystem evs).inFlight ≤ 1) := by
  refine ⟨fun st frame h => ?_, fun st f1 f2 h => ?_, fun evs => ?_⟩
  · simp [submit, h]
  · constructor <;> simp [submit, h]
  · have h0 : bgInv (initBGSystem (R := R) (E := E)) := by
      simp [bgInv, initBGSystem, initBGState]
    have h1 := bgInv_run encode evs initBGSystem h0
    rw [bgInv] at h1
    rw [h1]
    by_cases hp : (bgRun encode initBGSystem evs).bg.pending <;> simp [hp]

/-- Witness for C2: a pending analyzer ignores a submit, and an idle
analyzer launches on the first of two submits. -/
theorem single_flight_spec_witness :
    submit (fun u : Unit => u)
        ({ result := none, pending := true, frameB64 := none } : BGState Unit Unit) () =
      ({ result := none, pending := true, frameB64 := none }, false) ∧
    (submit (fun u : Unit => u) (initBGState (R := Unit) (E := Unit)) ()).2 = true ∧
    submit (fun u : Unit => u)
        (submit (fun u : Unit => u) (initBGState (R := Unit) (E := Unit)) ()).1 () =
      ((submit (fun u : Unit => u) (initBGState (R := Unit) (E := Unit)) ()).1, false) :=
  ⟨(single_flight_spec (fun u : Unit => u)).1 _ () rfl,
    ((single_flight_spec (fun u : Unit => u)).2.1 _ () () rfl).1,
    ((single_flight_spec (fun u : Unit => u)).2.1 _ () () rfl).2⟩

/-- C3: after a task launched from an idle analyzer completes storing a
result dict, the first get_result returns the dict together with the
encoding stored at submission and clears both slots atomically; and from
any state with an empty result slot, get_result returns (none, none) and
changes nothing, so later polls deliver nothing until another task
completes. -/
theorem at_most_once_delivery_spec {R E F : Type} (encode : F → E)
    (st : BGState R E) (frame : F) (r : R) (hidle : st.pending = false) :
    get_result (taskComplete (submit encode st frame).1 (some r)) =
      ((some r, some (encode frame)),
        { result := none, pending := false, frameB64 := none }) ∧
    (∀ s : BGState R E, s.result = none → get_result s = ((none, none), s)) ∧
    (∀ s : BGState R E, s.result = none →
      ∀ n : Nat, pollStream s n = List.replicate n (none, none)) := by
  refine ⟨?_, fun s hs => ?_, fun s hs n => pollStream_none s hs n⟩
  · simp [submit, hidle, taskComplete, get_result]
  · simp [get_result, hs]

/-- Witness for C3 on unit types: the completed result is delivered once
with its encoding, and the cleared state delivers nothing. -/
theorem at_most_once_delivery_spec_witness :
    get_result (taskComplete
        (submit (fun _ : Unit => ()) (initBGState (R := Unit) (E := Unit)) ()).1
        (some ())) =
      ((some (), some ()), { result := none, pending := false, frameB64 := none }) ∧
    get_result ({ result := none, pending := false, frameB64 := none } : BGState Unit Unit) =
      ((none, none), { result := none, pending := false, frameB64 := none }) :=
  ⟨(at_most_once_delivery_spec (fun _ : Unit => ()) initBGState () () rfl).1,
    (at_most_once_delivery_spec (fun _ : Unit => ()) initBGState () () rfl).2.1 _ rfl⟩

/-- C9: when the background task runs the analysis while the cooldown has
not elapsed, analyze_frame returns None leaving the timestamp alone, the
task stores None as the result and clears the pending flag, and every
subsequent get_result delivers (none, none): the submission completes with
no delivery to the consumer at all. -/
theorem throttled_submission_lost_spec {J E F : Type}
    (tryParse : List Char → Except String J) (encode : F → E)
    (st : BGState (AnalyzeReturn J) E) (frame : F)
    (lastTime now tResp : ℚ) (remote : Except String (List Char))
    (hidle : st.pending = false)
    (hthrottled : can_analyze now lastTime = false) :
    (submit encode st frame).2 = true ∧
    analyze_frame tryParse true lastTime now tResp remote = (none, lastTime) ∧
    (taskComplete (submit encode st frame).1
        (analyze_frame tryParse true lastTime now tResp remote).1).result = none ∧
    (taskComplete (submit encode st frame).1
        (analyze_frame tryParse true lastTime now tResp remote).1).pending = false ∧
    (∀ n : Nat, pollStream (taskComplete (submit encode st frame).1
        (analyze_frame tryParse true lastTime now tResp remote).1) n =
      List.replicate n (none, none)) := by
  have h1 : analyze_frame tryParse true lastTime now tResp remote = (none, lastTime) := by
    simp [analyze_frame, hthrottled]
  refine ⟨by simp [submit, hidle], h1, ?_, ?_, fun n => ?_⟩
  · simp [h1, taskComplete]
  · simp [taskComplete]
  · exact pollStream_none _ (by simp [h1, taskComplete]) n

/-- Witness for C9: a submission analyzed at time 3 with the timestamp at 0
is throttled and three later polls all deliver nothing. -/
theorem throttled_submission_lost_spec_witness :
    analyze_frame (fun _ => (Except.error "bad" : Except String Unit)) true 0 3 4
        (Except.ok []) = (none, 0) ∧
    pollStream (taskComplete
        (submit (fun _ : Unit => ()) (initBGState (R := AnalyzeReturn Unit) (E := Unit)) ()).1
        (analyze_frame (fun _ => (Except.error "bad" : Except String Unit)) true 0 3 4
          (Except.ok [])).1) 3 =
      List.replicate 3 (none, none) := by
  have h := throttled_submission_lost_spec
      (fun _ => (Except.error "bad" : Except String Unit)) (fun _ : Unit => ())
      initBGState () 0 3 4 (Except.ok []) rfl
      (by norm_num [can_analyze, THROTTLE_SECONDS])
  exact ⟨h.2.1, h.2.2.2.2 3⟩

end HomeGuard
